import Mathlib

/-!
Shallow embedding of the cost–benefit evaluation engine of the Farming CBA
Decision Aid (`src/app.js`), written to check the natural-language
specification against the code.

Modelling conventions, used throughout:

* JavaScript numbers are modelled by real numbers (`ℝ`) in the evaluation
  engine, and by rationals (`ℚ`) in the statistics helpers and in the first
  (trial-table) application, where claims need executable evaluation.
* `NaN` / "undefined" results are modelled by `Option` (`none` = NaN).
* The idiom `Number(x) || d` on a finite numeric `x` is modelled by
  `jsOr x d` (`0` is the only falsy finite number, so the idiom returns `d`
  exactly when `x = 0`).
* Year-valued fields are integers (`ℤ`); year loops `for (y = sy; y <= ey; y++)`
  become maps over `rangeZ sy ey`.
* The source builds year-indexed series by allocating a zero array and
  accumulating `series[idx] += v` under index guards.  Since addition into a
  zero array is order-independent, a series is embedded pointwise: entry `i`
  is the sum, over all posted amounts, of the amount when its guarded target
  index equals `i`.
* Category strings are compared directly against the upper-case literals
  `"C1"`..`"C8"`; the source's `toUpperCase()` normalisation is the identity
  on the category data appearing in the model.
* `Math.random()` (used only when no truthy seed is supplied) is modelled by
  an explicit `entropy : ℕ` argument, so that the two invocations of a
  simulation can be compared as pure functions.
-/

/-- `Number(x) || d` for a rational-valued field. -/
def jsOrQ (x d : ℚ) : ℚ := if x = 0 then d else x

/-- `Number(x) || d` for an integer (year) field. -/
def jsOrZ (x d : ℤ) : ℤ := if x = 0 then d else x

/-- Is `pat` a prefix of the character list? (helper for `.includes`). -/
def charsPrefix : List Char → List Char → Bool
  | [], _ => true
  | _ :: _, [] => false
  | a :: as, b :: bs => a == b && charsPrefix as bs

/-- Does the character list contain `pat` as a contiguous substring?
(helper for JavaScript `String.prototype.includes`). -/
def containsSub (pat : List Char) : List Char → Bool
  | [] => charsPrefix pat []
  | c :: rest => charsPrefix pat (c :: rest) || containsSub pat rest

/-- `name.toLowerCase().includes("control")` from the control-detection
fallback in `aggregateTreatments` (src/app.js:262-267). -/
def hasControlName (s : String) : Bool :=
  containsSub "control".data (s.data.map Char.toLower)

/-- One step of the seeded generator `rng` (src/app.js:3606-3615), the
mulberry32 mixer.  The state is the JavaScript variable `t` (an exact float,
modelled as an unbounded natural; every use coerces it with `>>> 0`-style
masking, i.e. `% 2^32`).  Returns the new state and the raw 32-bit output;
the JavaScript value is the output divided by `4294967296`. -/
def rngNext (t : ℕ) : ℕ × ℕ :=
  let t1 := t + 0x6d2b79f5
  let x0 := t1 % 2 ^ 32
  let x1 := ((x0 ^^^ (x0 >>> 15)) * (x0 ||| 1)) % 2 ^ 32
  let x2 := x1 ^^^ ((x1 + ((x1 ^^^ (x1 >>> 7)) * (x1 ||| 61)) % 2 ^ 32) % 2 ^ 32)
  (t1, x2 ^^^ (x2 >>> 14))

/-- Initial generator state: `(seed || Math.floor(Math.random() * 2**31)) >>> 0`
(src/app.js:3607).  A missing (`none`) or zero seed falls back to the
`entropy` argument, the model of `Math.random`. -/
def seedInit (seed : Option ℤ) (entropy : ℕ) : ℕ :=
  match seed with
  | none => entropy % 2 ^ 32
  | some s => if s = 0 then entropy % 2 ^ 32 else (s % 2 ^ 32).toNat

/-- The Monte Carlo loop bound
`N = Math.max(100, Number(model.sim.n) || 1000)` (src/app.js:5833) as the
JavaScript number it is; `none` models a missing / NaN run count. -/
def simN (n : Option ℚ) : ℚ :=
  max 100 (match n with | none => (1000 : ℚ) | some x => if x = 0 then 1000 else x)

/-- Can `new Array(N)` (src/app.js:5847) be constructed?  JavaScript
requires `ToUint32(N) = N`, i.e. `N` must be an integer in `[0, 2^32)`;
otherwise the allocation throws `RangeError` before the loop is reached. -/
def validLength (q : ℚ) : Prop :=
  (⌊q⌋ : ℚ) = q ∧ 0 ≤ q ∧ q < 2 ^ 32

/-- Number of iterations of the loop `for (let i = 0; i < N; i++)`
(src/app.js:5864) once the arrays at src/app.js:5847 have been allocated
successfully; in that case `N` is an integer, so `⌈N⌉ = N`.
(`runSimulationChecked` below guards the invalid-length crash.) -/
def natRuns (n : Option ℚ) : ℕ := ⌈simN n⌉₊

/-- Insert into a sorted list, keeping earlier elements first on ties
(stable, as JavaScript `Array.prototype.sort` is). -/
def sortedInsert (r : α → α → Bool) (a : α) : List α → List α
  | [] => [a]
  | b :: bs => if r a b then a :: b :: bs else b :: sortedInsert r a bs

/-- Stable insertion sort; extensionally equal to the stable comparator sort
used by the source (`arr.sort((a, b) => a - b)` and the ranking sort). -/
def insertionSort (r : α → α → Bool) : List α → List α
  | [] => []
  | a :: as => sortedInsert r a (insertionSort r as)

/-- Result record of `summaryStats` (src/app.js:5929-5941). -/
structure SimStats where
  min : ℚ
  max : ℚ
  mean : ℚ
  median : ℚ
  probPos : ℚ
deriving DecidableEq, Repr

/-- `summaryStats(arr)` (src/app.js:5929-5941).  The array entries are
`Option ℚ` with `none` for a non-finite value, so
`arr.filter(v => isFinite(v))` is `arr.filterMap id`; the all-NaN record
returned for an empty `clean` is `none`. -/
def summaryStats (arr : List (Option ℚ)) : Option SimStats :=
  let clean := arr.filterMap id
  if clean = [] then none
  else
    let sorted := insertionSort (fun a b => decide (a ≤ b)) clean
    let len := clean.length
    some
      { min := sorted.getD 0 0
        max := sorted.getD (len - 1) 0
        mean := clean.sum / len
        median :=
          if len % 2 = 0 then (sorted.getD (len / 2 - 1) 0 + sorted.getD (len / 2) 0) / 2
          else sorted.getD (len / 2) 0
        probPos := ((clean.filter (fun v => decide (0 < v))).length : ℚ) / len }

/-- `arr.filter(v => isFinite(v) && v > threshold).length / arr.length || 0`
(src/app.js:5947-5948).  In `ℚ` division by zero is already `0`, which is
exactly the `|| 0` fallback for an empty array. -/
def probGt (arr : List (Option ℚ)) (threshold : ℚ) : ℚ :=
  (((arr.filterMap id).filter (fun v => decide (threshold < v))).length : ℚ) /
    (arr.length : ℚ)

/-! ### The first (trial-table) application: control selection and `computeCBA` -/

/-- Evaluation parameters of the trial-table application (`state.params`). -/
structure CbaParams where
  pricePerTonne : ℚ
  years : ℤ
  persistenceYears : ℤ
  discountRate : ℚ
deriving DecidableEq, Repr

/-- One aggregated treatment (`state.treatments` entry, src/app.js:281-287);
the averages are `Option ℚ` with `none` for NaN. -/
structure CbaTreatment where
  name : String
  isControl : Bool
  avgYield : Option ℚ
  avgVarCost : Option ℚ
  avgCapCost : Option ℚ
deriving DecidableEq, Repr

/-- The slice of `state` read by `computeCBA` (src/app.js:294). -/
structure CbaState where
  treatments : List CbaTreatment
  controlName : Option String
  params : CbaParams
deriving DecidableEq, Repr

/-- One result row of `computeCBA` (src/app.js:339-350 plus the delta and
rank fields added at src/app.js:360-374).  `rank = 0` stands for the field
being not yet assigned. -/
structure CbaRow where
  name : String
  isControl : Bool
  avgYield : Option ℚ
  avgVarCost : Option ℚ
  avgCapCost : Option ℚ
  pvBenefits : Option ℚ
  pvTotalCosts : Option ℚ
  npv : Option ℚ
  bcr : Option ℚ
  roi : Option ℚ
  deltaPvBenefits : Option ℚ
  deltaPvCosts : Option ℚ
  deltaNpv : Option ℚ
  rank : ℕ
deriving DecidableEq, Repr, Inhabited

/-- `state.results` as written by `computeCBA` (src/app.js:376-383). -/
structure CbaResults where
  treatments : List CbaRow
  control : CbaRow
  price : ℚ
  years : ℤ
  persistenceYears : ℤ
  discountRate : ℚ
deriving DecidableEq, Repr

/-- NaN-propagating subtraction (`r.npv - cNpv` etc., src/app.js:361-363). -/
def optSub : Option ℚ → Option ℚ → Option ℚ
  | some a, some b => some (a - b)
  | _, _ => none

/-- `discountFactorSum(discountRatePct, years)` (src/app.js:88-97). -/
def discountFactorSum (discountRatePct : ℚ) (years : ℤ) : ℚ :=
  let r := discountRatePct / 100
  if years ≤ 0 then 0
  else if r = 0 then (years : ℚ)
  else ((List.range years.toNat).map (fun t => 1 / (1 + r) ^ (t + 1))).sum

/-- The "Decide control treatment" block of `aggregateTreatments`
(src/app.js:259-272): the flagged name if any, else the first treatment name
containing "control" (case-insensitively), else the first treatment name. -/
def decideControl (summaryNames : List String) (controlNameFromFlag : Option String) :
    Option String :=
  let c1 := controlNameFromFlag
  let c2 := match c1 with
    | some n => some n
    | none => summaryNames.find? hasControlName
  match c2 with
  | some n => some n
  | none => summaryNames.head?

/-- Comparator of the descending ranking sort (src/app.js:366-370): row `a`
may stay before row `b` when `b`'s key is at most `a`'s key, where the key is
`Number.isNaN(npv) ? -Infinity : npv`. -/
def npvDescLe (a b : CbaRow) : Bool :=
  match a.npv, b.npv with
  | _, none => true
  | none, some _ => false
  | some x, some y => decide (y ≤ x)

/-- `computeCBA()` (src/app.js:293-384).  Returns `none` when the early
`if (!treatments.length || !controlName) return;` fires (no results are
produced), `some` of the results object otherwise.
Notes kept from the source:
* `const control = ...` at line 297 is computed but never read afterwards
  and is therefore not modelled;
* `pvCapCosts` is never NaN (line 321 maps NaN to 0), so the
  `isNaN(pvVarCosts) && isNaN(pvCapCosts)` branch of line 322-325 is
  unreachable and `pvTotalCosts` is always defined;
* the source mutates the row objects in place for deltas and ranks, so the
  `control` field of the result is the (delta- and rank-carrying) row of the
  control; it is recovered here by name from the ranked rows. -/
def computeCBA (st : CbaState) : Option CbaResults :=
  match st.treatments, st.controlName with
  | [], _ => none
  | _ :: _, none => none
  | t0 :: rest, some controlName =>
    let price := jsOrQ st.params.pricePerTonne 0
    let years := max 1 (jsOrZ st.params.years 1)
    let persistenceYears := max 1 (min years (jsOrZ st.params.persistenceYears years))
    let discountRate := st.params.discountRate
    let factorBenefits := discountFactorSum discountRate persistenceYears
    let factorCosts := discountFactorSum discountRate years
    let results := (t0 :: rest).map (fun t =>
      let pvBenefits := t.avgYield.map (fun y => y * price * factorBenefits)
      let pvVarCosts := t.avgVarCost.map (fun v => v * factorCosts)
      let pvCapCosts : ℚ := t.avgCapCost.getD 0
      let pvTotalCosts : Option ℚ := some (pvVarCosts.getD 0 + pvCapCosts)
      let npv : Option ℚ := match pvBenefits, pvTotalCosts with
        | some b, some c => some (b - c)
        | _, _ => none
      let bcr : Option ℚ := match pvBenefits, pvTotalCosts with
        | some b, some c => if 0 < c then some (b / c) else none
        | _, _ => none
      let roi : Option ℚ := match npv, pvTotalCosts with
        | some nv, some c => if 0 < c then some (nv / c * 100) else none
        | _, _ => none
      { name := t.name
        isControl := t.name == controlName
        avgYield := t.avgYield
        avgVarCost := t.avgVarCost
        avgCapCost := t.avgCapCost
        pvBenefits := pvBenefits
        pvTotalCosts := pvTotalCosts
        npv := npv
        bcr := bcr
        roi := roi
        deltaPvBenefits := none
        deltaPvCosts := none
        deltaNpv := none
        rank := 0 : CbaRow })
    let controlRes := (results.find? (fun r => r.isControl)).getD results.headI
    let withDeltas := results.map (fun r =>
      { r with
        deltaPvBenefits := optSub r.pvBenefits controlRes.pvBenefits
        deltaPvCosts := optSub r.pvTotalCosts controlRes.pvTotalCosts
        deltaNpv := optSub r.npv controlRes.npv })
    let sorted := insertionSort npvDescLe withDeltas
    let ranked := (sorted.zip (List.range sorted.length)).map
      (fun p => { p.1 with rank := p.2 + 1 })
    some
      { treatments := ranked
        control := (ranked.find? (fun r => r.isControl)).getD ranked.headI
        price := price
        years := years
        persistenceYears := persistenceYears
        discountRate := discountRate }

/-! ### The main evaluation engine (real-valued) -/

open scoped Classical

noncomputable section

/-- `Number(x) || d` for a real-valued field. -/
def jsOr (x d : ℝ) : ℝ := if x = 0 then d else x

/-- `clamp(v, a, b) = Math.max(a, Math.min(b, v))` (src/app.js:3583). -/
def clamp (v a b : ℝ) : ℝ := max a (min b v)

/-- `triangular(r, a, c, b)` (src/app.js:3617-3621): triangular-distribution
inverse CDF on `[a, b]` with mode `c`. -/
def triangular (r a c b : ℝ) : ℝ :=
  let F := (c - a) / (b - a)
  if r < F then a + Real.sqrt (r * (b - a) * (c - a))
  else b - Real.sqrt ((1 - r) * (b - a) * (b - c))

/-- An output metric: only its unit value `o.value` is read by the engine. -/
structure OutputDef where
  value : ℝ
deriving Inhabited

/-- A treatment record as read by `buildCashflows` (src/app.js:4245-4271).
`deltas` is positional, parallel to the model's output list. -/
structure Treatment where
  area : ℝ
  deltas : List ℝ
  materialsCost : ℝ
  servicesCost : ℝ
  labourCost : ℝ
  capitalCost : ℝ
  constrained : Bool
deriving Inhabited

/-- An extra-benefit item as read by `additionalBenefitsSeries`
(src/app.js:4168-4227). -/
structure BenefitItem where
  category : String
  frequency : String
  startYear : ℤ
  endYear : ℤ
  year : ℤ
  unitValue : ℝ
  quantity : ℝ
  abatement : ℝ
  annualAmount : ℝ
  growthPct : ℝ
  p0 : ℝ
  p1 : ℝ
  consequence : ℝ
  linkAdoption : Bool
  linkRisk : Bool
deriving Inhabited

/-- A project-level cost item as read by `buildCashflows`
(src/app.js:4286-4310). -/
structure OtherCostItem where
  type : String
  annual : ℝ
  startYear : ℤ
  endYear : ℤ
  capital : ℝ
  year : ℤ
  constrained : Bool
deriving Inhabited

/-- `model.time` as read by the engine. -/
structure TimeCfg where
  startYear : ℤ
  years : ℕ
  discLow : ℝ
  discBase : ℝ
  discHigh : ℝ
  mirrFinance : ℝ
  mirrReinvest : ℝ
deriving Inhabited

/-- A low/base/high scenario triple (`model.adoption`, `model.risk`). -/
structure ScenCfg where
  low : ℝ
  base : ℝ
  high : ℝ
deriving Inhabited

/-- `model.sim` configuration fields read by `runSimulation`
(src/app.js:5833-5835, 5850, 5872-5874, 5900). -/
structure SimCfg where
  n : Option ℚ
  targetBCR : ℝ
  bcrMode : String
  seed : Option ℤ
  variationPct : ℝ
  varyOutputs : Bool
  varyTreatCosts : Bool
  varyInputCosts : Bool
deriving Inhabited

/-- The slice of the global `model` read by the evaluation engine. -/
structure CBAModel where
  outputs : List OutputDef
  treatments : List Treatment
  benefits : List BenefitItem
  otherCosts : List OtherCostItem
  time : TimeCfg
  adoption : ScenCfg
  risk : ScenCfg
  sim : SimCfg
deriving Inhabited

/-- `for (let y = sy; y <= ey; y++)` iteration range (empty when `ey < sy`). -/
def rangeZ (sy ey : ℤ) : List ℤ :=
  (List.range (ey + 1 - sy).toNat).map (fun k => sy + k)

/-- The `switch (cat)` annual amount of an extra-benefit item
(src/app.js:4201-4224). -/
def benefitAmt (b : BenefitItem) : ℝ :=
  let cat := b.category
  if cat = "C1" ∨ cat = "C2" ∨ cat = "C3" then
    jsOr b.unitValue 0 * jsOr (if cat = "C3" then b.abatement else b.quantity) 0
  else if cat = "C4" ∨ cat = "C5" ∨ cat = "C8" then jsOr b.annualAmount 0
  else if cat = "C7" then max (jsOr b.p0 0 - jsOr b.p1 0) 0 * jsOr b.consequence 0
  else 0

/-- Contribution of one extra-benefit item to series index `i`
(src/app.js:4170-4226): the `Once`/`C6` branch posts one lump through
`addOnce` at `idx = year - baseYear + 1` guarded by `0 ≤ idx ≤ N`; the
annual branch posts, for each loop year `y`, the grown amount through
`addAnnual` at `idx = y - baseYear + 1` guarded by `1 ≤ idx ≤ N`. -/
def benefitContribAt (N : ℕ) (baseYear : ℤ) (adoptMul risk : ℝ) (b : BenefitItem)
    (i : ℕ) : ℝ :=
  let cat := b.category
  let A := if b.linkAdoption then clamp adoptMul 0 1 else 1
  let R := if b.linkRisk then 1 - clamp risk 0 1 else 1
  let g := jsOr b.growthPct 0
  let sy := jsOrZ b.startYear baseYear
  let ey := jsOrZ b.endYear sy
  let yr := jsOrZ b.year sy
  if b.frequency = "Once" ∨ cat = "C6" then
    let idx := yr - baseYear + 1
    if idx = (i : ℤ) ∧ 0 ≤ idx ∧ idx ≤ (N : ℤ) then jsOr b.annualAmount 0 * A * R else 0
  else
    ((rangeZ sy ey).map (fun y =>
      let idx := y - baseYear + 1
      if idx = (i : ℤ) ∧ 1 ≤ idx ∧ idx ≤ (N : ℤ) then
        benefitAmt b * (1 + g / 100) ^ (y - sy).toNat * A * R
      else 0)).sum

/-- `additionalBenefitsSeries(N, baseYear, adoptMul, risk)`
(src/app.js:4168-4229), length `N + 1`. -/
def additionalBenefitsSeries (N : ℕ) (baseYear : ℤ) (adoptMul risk : ℝ)
    (benefits : List BenefitItem) : List ℝ :=
  (List.range (N + 1)).map (fun i =>
    (benefits.map (fun b => benefitContribAt N baseYear adoptMul risk b i)).sum)

/-- `valuePerHa` accumulation for one treatment (src/app.js:4247-4252). -/
def valuePerHa (outputs : List OutputDef) (t : Treatment) : ℝ :=
  ((outputs.zip t.deltas).map (fun p => jsOr p.2 0 * jsOr p.1.value 0)).sum

/-- One treatment's annual benefit (src/app.js:4254). -/
def treatBenefit (outputs : List OutputDef) (t : Treatment) (adoptMul risk : ℝ) : ℝ :=
  valuePerHa outputs t * jsOr t.area 0 * (1 - clamp risk 0 1) * clamp adoptMul 0 1

/-- One treatment's annual operating cost (src/app.js:4256-4260). -/
def treatOpCost (t : Treatment) : ℝ :=
  (jsOr t.materialsCost 0 + jsOr t.servicesCost 0 + jsOr t.labourCost 0) * jsOr t.area 0

/-- Annual other-cost postings landing at index `i` (src/app.js:4287-4297):
each item of type `"annual"` posts its amount at `idx = y - baseYear + 1`
for every window year `y`, guarded by `1 ≤ idx ≤ N`. -/
def otherAnnualAt (cs : List OtherCostItem) (baseYear : ℤ) (N : ℕ) (i : ℕ) : ℝ :=
  (cs.map (fun c =>
    if c.type = "annual" then
      let a := jsOr c.annual 0
      let sy := jsOrZ c.startYear baseYear
      let ey := jsOrZ c.endYear sy
      ((rangeZ sy ey).map (fun y =>
        let idx := y - baseYear + 1
        if idx = (i : ℤ) ∧ 1 ≤ idx ∧ idx ≤ (N : ℤ) then a else 0)).sum
    else 0)).sum

/-- Capital other-cost postings landing at index `i ≥ 1`
(src/app.js:4298-4309): type `"capital"` items post at `idx = year - baseYear`
when `0 < idx ≤ N`; offsets outside `[0, N]` are dropped. -/
def otherCapitalSpreadAt (cs : List OtherCostItem) (baseYear : ℤ) (N : ℕ) (i : ℕ) : ℝ :=
  (cs.map (fun c =>
    if c.type = "capital" then
      let cap := jsOr c.capital 0
      let idx := jsOrZ c.year baseYear - baseYear
      if idx = (i : ℤ) ∧ 0 < idx ∧ idx ≤ (N : ℤ) then cap else 0
    else 0)).sum

/-- Capital other-cost postings with offset `0`, accumulated into
`otherCapitalY0` and added at index 0 (src/app.js:4301-4304, 4312). -/
def otherCapitalAt0 (cs : List OtherCostItem) (baseYear : ℤ) : ℝ :=
  (cs.map (fun c =>
    if c.type = "capital" ∧ jsOrZ c.year baseYear - baseYear = 0 then jsOr c.capital 0
    else 0)).sum

/-- Return value of `buildCashflows` (src/app.js:4324). -/
structure Cashflows where
  benefitByYear : List ℝ
  costByYear : List ℝ
  constrainedCostByYear : List ℝ
  cf : List ℝ
  annualGM : ℝ

/-- `buildCashflows({forRate, adoptMul, risk})` (src/app.js:4231-4325).
`forRate` is destructured but never read by the source body.  Series are of
length `N + 1`; treatment capital lands at index 0, recurring amounts at
indices `1..N`, other costs per their guards, and the extra-benefit series
is added entrywise. -/
def buildCashflows (m : CBAModel) (forRate adoptMul risk : ℝ) : Cashflows :=
  let N := m.time.years
  let baseYear := m.time.startYear
  let annualBenefit := (m.treatments.map (fun t => treatBenefit m.outputs t adoptMul risk)).sum
  let treatAnnualCost := (m.treatments.map treatOpCost).sum
  let treatCapitalY0 := (m.treatments.map (fun t => jsOr t.capitalCost 0)).sum
  let constrTreats := m.treatments.filter (fun t => t.constrained)
  let treatConstrAnnualCost := (constrTreats.map treatOpCost).sum
  let treatConstrCapitalY0 := (constrTreats.map (fun t => jsOr t.capitalCost 0)).sum
  let constrOther := m.otherCosts.filter (fun c => c.constrained)
  let extra := additionalBenefitsSeries N baseYear adoptMul risk m.benefits
  let benefitByYear := (List.range (N + 1)).map (fun i =>
    (if 1 ≤ i ∧ i ≤ N then annualBenefit else 0) + extra.getD i 0)
  let costByYear := (List.range (N + 1)).map (fun i =>
    (if i = 0 then treatCapitalY0 + otherCapitalAt0 m.otherCosts baseYear else 0)
    + (if 1 ≤ i ∧ i ≤ N then treatAnnualCost else 0)
    + otherCapitalSpreadAt m.otherCosts baseYear N i
    + otherAnnualAt m.otherCosts baseYear N i)
  let constrainedCostByYear := (List.range (N + 1)).map (fun i =>
    (if i = 0 then treatConstrCapitalY0 + otherCapitalAt0 constrOther baseYear else 0)
    + (if 1 ≤ i ∧ i ≤ N then treatConstrAnnualCost else 0)
    + otherCapitalSpreadAt constrOther baseYear N i
    + otherAnnualAt constrOther baseYear N i)
  { benefitByYear := benefitByYear
    costByYear := costByYear
    constrainedCostByYear := constrainedCostByYear
    cf := List.zipWith (fun b c => b - c) benefitByYear costByYear
    annualGM := annualBenefit - treatAnnualCost }

/-- Index-threaded accumulator of `presentValue` (src/app.js:4327-4333). -/
def presentValueAux (ratePct : ℝ) : List ℝ → ℕ → ℝ
  | [], _ => 0
  | v :: rest, t => v / (1 + ratePct / 100) ^ t + presentValueAux ratePct rest (t + 1)

/-- `presentValue(series, ratePct)` (src/app.js:4327-4333). -/
def presentValue (series : List ℝ) (ratePct : ℝ) : ℝ :=
  presentValueAux ratePct series 0

/-- Accumulator of the local `npvAt` closure of `irr` (src/app.js:4341). -/
def npvAtAux (r : ℝ) : List ℝ → ℕ → ℝ
  | [], _ => 0
  | v :: rest, t => v / (1 + r) ^ t + npvAtAux r rest (t + 1)

/-- `npvAt(r)` inside `irr` (src/app.js:4341): NPV of the net series at the
raw (non-percent) rate `r`. -/
def npvAt (cf : List ℝ) (r : ℝ) : ℝ := npvAtAux r cf 0

/-- The bracket-expansion loop of `irr` (src/app.js:4345-4348): while the
products of the NPVs at the ends keep the same sign, multiply `hi` by 1.5,
at most `fuel` (source: 20) times. -/
def expandHi (cf : List ℝ) (nLo : ℝ) : ℕ → ℝ → ℝ
  | 0, hi => hi
  | fuel + 1, hi => if 0 < nLo * npvAt cf hi then expandHi cf nLo fuel (hi * 1.5) else hi

/-- The bisection loop of `irr` (src/app.js:4351-4363), `fuel` (source: 80)
iterations: stop early at `|npv(mid)| < 1e-8` and return `mid * 100`; after
the last iteration return the current midpoint times 100. -/
def bisect (cf : List ℝ) : ℕ → ℝ → ℝ → ℝ → ℝ
  | 0, lo, hi, _ => (lo + hi) / 2 * 100
  | fuel + 1, lo, hi, nLo =>
    let mid := (lo + hi) / 2
    let nMid := npvAt cf mid
    if |nMid| < 1e-8 then mid * 100
    else if nLo * nMid ≤ 0 then bisect cf fuel lo mid nLo
    else bisect cf fuel mid hi nMid

/-- `irr(cf)` (src/app.js:4335-4364); `none` models NaN. -/
def irr (cf : List ℝ) : Option ℝ :=
  if (∃ v ∈ cf, 0 < v) ∧ (∃ v ∈ cf, v < 0) then
    let lo : ℝ := -0.99
    let nLo := npvAt cf lo
    let hi := if 0 < nLo * npvAt cf 5 then expandHi cf nLo 20 5 else 5
    if 0 < nLo * npvAt cf hi then none
    else some (bisect cf 80 lo hi nLo)
  else none

/-- Accumulator for the discounted negative flows of `mirr`
(src/app.js:4374). -/
def pvNegAux (fr : ℝ) : List ℝ → ℕ → ℝ
  | [], _ => 0
  | v :: rest, t => (if v < 0 then v / (1 + fr) ^ t else 0) + pvNegAux fr rest (t + 1)

/-- Accumulator for the compounded positive flows of `mirr`
(src/app.js:4375). -/
def fvPosAux (rr : ℝ) (n : ℕ) : List ℝ → ℕ → ℝ
  | [], _ => 0
  | v :: rest, t => (if 0 < v then v * (1 + rr) ^ (n - t) else 0) + fvPosAux rr n rest (t + 1)

/-- `mirr(cf, financeRatePct, reinvestRatePct)` (src/app.js:4366-4380);
`none` models the NaN returned when `pvNeg = 0`.  The `1/n` exponent is a
real power (the base `-fvPos/pvNeg` is nonnegative whenever `pvNeg ≠ 0`). -/
def mirr (cf : List ℝ) (financeRatePct reinvestRatePct : ℝ) : Option ℝ :=
  let n := cf.length - 1
  let fr := financeRatePct / 100
  let rr := reinvestRatePct / 100
  let pvNeg := pvNegAux fr cf 0
  let fvPos := fvPosAux rr n cf 0
  if pvNeg = 0 then none
  else some (((-fvPos / pvNeg) ^ ((1 : ℝ) / (n : ℝ)) - 1) * 100)

/-- Accumulator of `payback` (src/app.js:4382-4389). -/
def paybackAux (ratePct : ℝ) : List ℝ → ℕ → ℝ → Option ℕ
  | [], _, _ => none
  | v :: rest, t, cum =>
    let c := cum + v / (1 + ratePct / 100) ^ t
    if 0 ≤ c then some t else paybackAux ratePct rest (t + 1) c

/-- `payback(cf, ratePct)` (src/app.js:4382-4389): first index at which the
discounted cumulative net flow is nonnegative, `none` if never. -/
def payback (cf : List ℝ) (ratePct : ℝ) : Option ℕ :=
  paybackAux ratePct cf 0 0

/-- Return record of `computeAll` (src/app.js:4408-4423). -/
structure AllResults where
  pvBenefits : ℝ
  pvCosts : ℝ
  pvCostsConstrained : ℝ
  npv : ℝ
  bcr : Option ℝ
  irrVal : Option ℝ
  mirrVal : Option ℝ
  roi : Option ℝ
  annualGM : ℝ
  profitMargin : Option ℝ
  paybackYears : Option ℕ
  cf : List ℝ
  benefitByYear : List ℝ
  costByYear : List ℝ

/-- `computeAll(rate, adoptMul, risk, bcrMode)` (src/app.js:4391-4424). -/
def computeAll (m : CBAModel) (rate adoptMul risk : ℝ) (bcrMode : String) : AllResults :=
  let b := buildCashflows m rate adoptMul risk
  let pvBenefits := presentValue b.benefitByYear rate
  let pvCosts := presentValue b.costByYear rate
  let pvCostsConstrained := presentValue b.constrainedCostByYear rate
  let npv := pvBenefits - pvCosts
  let denom := if bcrMode = "constrained" then pvCostsConstrained else pvCosts
  let bcr := if 0 < denom then some (pvBenefits / denom) else none
  let irrVal := irr b.cf
  let mirrVal := mirr b.cf m.time.mirrFinance m.time.mirrReinvest
  let roi := if 0 < pvCosts then some ((pvBenefits - pvCosts) / pvCosts * 100) else none
  let profitMargin :=
    if 0 < b.benefitByYear.getD 1 0 then some (b.annualGM / b.benefitByYear.getD 1 0 * 100)
    else none
  { pvBenefits := pvBenefits
    pvCosts := pvCosts
    pvCostsConstrained := pvCostsConstrained
    npv := npv
    bcr := bcr
    irrVal := irrVal
    mirrVal := mirrVal
    roi := roi
    annualGM := b.annualGM
    profitMargin := profitMargin
    paybackYears := payback b.cf rate
    cf := b.cf
    benefitByYear := b.benefitByYear
    costByYear := b.costByYear }

/-- One Monte Carlo record pushed into `details` (src/app.js:5903-5909). -/
structure SimRecord where
  discountRatePct : ℝ
  adoptionMultiplier : ℝ
  riskMultiplier : ℝ
  npv : ℝ
  bcr : Option ℝ

/-- A conditional shock draw (src/app.js:5872-5874):
`flag ? 1 + (rand() * 2 * varPct - varPct) : 1`, consuming one generator
step only when the flag is set. -/
def condDraw (flag : Bool) (varPct : ℝ) (s : ℕ) : ℕ × ℝ :=
  if flag then
    let p := rngNext s
    (p.1, 1 + (((p.2 : ℝ) / 4294967296) * 2 * varPct - varPct))
  else (s, 1)

/-- Application of the multiplicative shocks to the model
(src/app.js:5877-5898): each flagged family of inputs is rewritten from its
saved base values times the family's shock. -/
def applyShocks (m : CBAModel) (baseOut : List ℝ) (baseTreat : List (ℝ × ℝ × ℝ))
    (baseOther : List (ℝ × ℝ)) (sOut sTreat sInput : ℝ) : CBAModel :=
  { m with
    outputs :=
      if m.sim.varyOutputs then
        (m.outputs.zip baseOut).map (fun p => { p.1 with value := p.2 * sOut })
      else m.outputs
    treatments :=
      if m.sim.varyTreatCosts then
        (m.treatments.zip baseTreat).map (fun p =>
          { p.1 with
            materialsCost := p.2.1 * sTreat
            servicesCost := p.2.2.1 * sTreat
            labourCost := p.2.2.2 * sTreat })
      else m.treatments
    otherCosts :=
      if m.sim.varyInputCosts then
        (m.otherCosts.zip baseOther).map (fun p =>
          { p.1 with annual := p.2.1 * sInput, capital := p.2.2 * sInput })
      else m.otherCosts }

/-- The Monte Carlo iteration loop (src/app.js:5864-5910): three triangular
draws, up to three conditional shock draws, shock application, evaluation,
one record per iteration. -/
def simLoop (m : CBAModel) (baseOut : List ℝ) (baseTreat : List (ℝ × ℝ × ℝ))
    (baseOther : List (ℝ × ℝ)) (varPct : ℝ) : ℕ → ℕ → List SimRecord
  | 0, _ => []
  | fuel + 1, s =>
    let p1 := rngNext s
    let p2 := rngNext p1.1
    let p3 := rngNext p2.1
    let disc := triangular ((p1.2 : ℝ) / 4294967296) m.time.discLow m.time.discBase
      m.time.discHigh
    let adoptMul := clamp (triangular ((p2.2 : ℝ) / 4294967296) m.adoption.low
      m.adoption.base m.adoption.high) 0 1
    let risk := clamp (triangular ((p3.2 : ℝ) / 4294967296) m.risk.low m.risk.base
      m.risk.high) 0 1
    let q1 := condDraw m.sim.varyOutputs varPct p3.1
    let q2 := condDraw m.sim.varyTreatCosts varPct q1.1
    let q3 := condDraw m.sim.varyInputCosts varPct q2.1
    let shocked := applyShocks m baseOut baseTreat baseOther q1.2 q2.2 q3.2
    let allRes := computeAll shocked disc adoptMul risk m.sim.bcrMode
    { discountRatePct := disc
      adoptionMultiplier := adoptMul
      riskMultiplier := risk
      npv := allRes.npv
      bcr := allRes.bcr } :: simLoop m baseOut baseTreat baseOther varPct fuel q3.1

/-- The restore phase of `runSimulation` (src/app.js:5912-5926): every
output value, treatment cost component, and other-cost amount is written
back from the saved base arrays. -/
def restoreModel (m : CBAModel) (baseOut : List ℝ) (baseTreat : List (ℝ × ℝ × ℝ))
    (baseOther : List (ℝ × ℝ)) : CBAModel :=
  { m with
    outputs := (m.outputs.zip baseOut).map (fun p => { p.1 with value := p.2 })
    treatments := (m.treatments.zip baseTreat).map (fun p =>
      { p.1 with
        materialsCost := p.2.1
        servicesCost := p.2.2.1
        labourCost := p.2.2.2 })
    otherCosts := (m.otherCosts.zip baseOther).map (fun p =>
      { p.1 with annual := p.2.1, capital := p.2.2 }) }

/-- The body of `runSimulation()` (src/app.js:5828-5972) from the point
where `new Array(N)` (src/app.js:5847) has succeeded, restricted to its
computational content: the saved base values, the seeded iteration loop
producing the `details` records, and the final restoration of the model.
A successful allocation means `N` is an integer, so the loop runs exactly
`natRuns` times.  Rendering (DOM writes, histograms, toasts) is outside
the model.  `entropy` models the `Math.random` call used when the seed is
falsy.  The allocation guard itself is `runSimulationChecked` below. -/
def runSimulation (m : CBAModel) (entropy : ℕ) : List SimRecord × CBAModel :=
  let N := natRuns m.sim.n
  let t0 := seedInit m.sim.seed entropy
  let baseOut := m.outputs.map (fun o => jsOr o.value 0)
  let baseTreat := m.treatments.map (fun t =>
    (jsOr t.materialsCost 0, jsOr t.servicesCost 0, jsOr t.labourCost 0))
  let baseOther := m.otherCosts.map (fun c => (jsOr c.annual 0, jsOr c.capital 0))
  let varPct := jsOr m.sim.variationPct 0 / 100
  (simLoop m baseOut baseTreat baseOther varPct N t0,
   restoreModel m baseOut baseTreat baseOther)

/-- `runSimulation()` including the `const npvs = new Array(N)` /
`const bcrs = new Array(N)` allocations at src/app.js:5847-5848, which
precede the base-value snapshot and the loop.  When
`N = Math.max(100, Number(model.sim.n) || 1000)` is not a valid array
length (`ToUint32(N) ≠ N`, e.g. a fractional `N` or `N ≥ 2^32`), the
allocation throws `RangeError`, the async function rejects (its caller at
src/app.js:4518 does not catch), zero loop iterations are performed, no
records are produced, and the model is never touched: modelled as `none`. -/
def runSimulationChecked (m : CBAModel) (entropy : ℕ) :
    Option (List SimRecord × CBAModel) :=
  if validLength (simN m.sim.n) then some (runSimulation m entropy) else none

/-! ### Concrete instances used by the claims -/

/-- Simulation configuration shared by the concrete models below:
100 runs, nonzero seed, no multiplicative shocks, plain BCR mode. -/
def simCfg0 : SimCfg :=
  { n := some 100
    targetBCR := 2
    bcrMode := "all"
    seed := some 1
    variationPct := 0
    varyOutputs := false
    varyTreatCosts := false
    varyInputCosts := false }

/-- The one-treatment scenario of the specification's §8: one output worth
100 per hectare-year, one 1 ha treatment costing 40 per year with no
capital cost, no extra items, a 1-year horizon. -/
def M1 : CBAModel :=
  { outputs := [{ value := 100 }]
    treatments := [{ area := 1, deltas := [1], materialsCost := 40, servicesCost := 0,
                     labourCost := 0, capitalCost := 0, constrained := true }]
    benefits := []
    otherCosts := []
    time := { startYear := 2026, years := 1, discLow := 4, discBase := 7, discHigh := 10,
              mirrFinance := 6, mirrReinvest := 4 }
    adoption := { low := 1, base := 1, high := 1 }
    risk := { low := 0, base := 0, high := 0 }
    sim := simCfg0 }

/-- A two-treatment model separating `pvCosts` from `pvCostsConstrained`:
the expensive treatment is excluded from the constrained denominator. -/
def M5 : CBAModel :=
  { outputs := [{ value := 50 }]
    treatments :=
      [{ area := 1, deltas := [1], materialsCost := 100, servicesCost := 0,
         labourCost := 0, capitalCost := 0, constrained := false },
       { area := 1, deltas := [0], materialsCost := 10, servicesCost := 0,
         labourCost := 0, capitalCost := 0, constrained := true }]
    benefits := []
    otherCosts := []
    time := { startYear := 2026, years := 1, discLow := 4, discBase := 7, discHigh := 10,
              mirrFinance := 6, mirrReinvest := 4 }
    adoption := { low := 1, base := 1, high := 1 }
    risk := { low := 0, base := 0, high := 0 }
    sim := { simCfg0 with bcrMode := "constrained" } }

/-- A one-off benefit item: category C6, frequency Once, 100 posted at the
horizon's base year (offset 0 from `startYear = 2026`), no links. -/
def b6 : BenefitItem :=
  { category := "C6", frequency := "Once", startYear := 2026, endYear := 2026,
    year := 2026, unitValue := 0, quantity := 0, abatement := 0, annualAmount := 100,
    growthPct := 0, p0 := 0, p1 := 0, consequence := 0,
    linkAdoption := false, linkRisk := false }

/-- A model whose simulation seed is the numeric value 0 (falsy in
JavaScript, hence replaced by `Math.random`). -/
def M8 : CBAModel :=
  { M1 with sim := { simCfg0 with seed := some 0 } }

/-- The trial-table state for a dataset of two treatments named "A" and "B",
neither flagged as control: the control name decided by
`aggregateTreatments` is the fallback `decideControl ["A", "B"] none`. -/
def stAB : CbaState :=
  { treatments :=
      [{ name := "A", isControl := true, avgYield := some 2, avgVarCost := some 10,
         avgCapCost := some 0 },
       { name := "B", isControl := false, avgYield := some 3, avgVarCost := some 20,
         avgCapCost := some 0 }]
    controlName := decideControl ["A", "B"] none
    params := { pricePerTonne := 500, years := 10, persistenceYears := 10,
                discountRate := 0 } }

/-- The trial-table state for a dataset with the single treatment "A",
not flagged as control: `aggregateTreatments` silently decides
`controlName = decideControl ["A"] none = some "A"`. -/
def stA : CbaState :=
  { treatments :=
      [{ name := "A", isControl := true, avgYield := some 2, avgVarCost := some 10,
         avgCapCost := some 0 }]
    controlName := decideControl ["A"] none
    params := { pricePerTonne := 500, years := 10, persistenceYears := 10,
                discountRate := 0 } }

/-- A model requesting the fractional Monte Carlo run count 100.5. -/
def MC10 : CBAModel :=
  { M1 with sim := { simCfg0 with n := some (201 / 2) } }

end

/-! ### Helper lemmas -/

theorem jsOr_zero (x : ℝ) : jsOr x 0 = x := by
  unfold jsOr; split <;> simp_all

theorem simLoop_length (m : CBAModel) (baseOut : List ℝ) (baseTreat : List (ℝ × ℝ × ℝ))
    (baseOther : List (ℝ × ℝ)) (varPct : ℝ) :
    ∀ (fuel s : ℕ), (simLoop m baseOut baseTreat baseOther varPct fuel s).length = fuel := by
  intro fuel
  induction fuel with
  | zero => intro s; simp [simLoop]
  | succ k ih => intro s; simp only [simLoop, List.length_cons, ih]

theorem runSimulation_length (m : CBAModel) (e : ℕ) :
    (runSimulation m e).1.length = natRuns m.sim.n := by
  simp only [runSimulation]
  exact simLoop_length _ _ _ _ _ _ _

/-! ### C7: Monte Carlo summary statistics -/

/-- C7 (corrected): the source's probability of BCR exceeding a threshold
divides the count of finite exceeding results by the TOTAL run count, not by
the count of finite results, as the claim states.  Concretely, for the
result array `[2, NaN]` the claim predicts probability `1` (one finite
result, which exceeds 1), but `probGt` returns `1/2`.  -/
theorem claim_C7_cex :
    probGt [some 2, none] 1 ≠
      (((([some (2 : ℚ), none] : List (Option ℚ)).filterMap id).filter
          (fun v => decide ((1 : ℚ) < v))).length : ℚ) /
        ((([some (2 : ℚ), none] : List (Option ℚ)).filterMap id).length : ℚ) := by
  simp only [probGt, List.filterMap_cons, List.filter_cons, id, List.filterMap_nil,
    List.filter_nil, List.length_cons, List.length_nil]
  norm_num

/-- C7 (amended): `min`, `max`, `mean`, `median` and the probability of a
positive value are computed over only the finite results (`summaryStats` is
unchanged by deleting the non-finite entries); the probability of exceeding
a threshold counts only finite exceeding results in the numerator but
divides by the total run count, including non-finite results. -/
theorem claim_C7 (arr : List (Option ℚ)) (th : ℚ) :
    summaryStats arr = summaryStats ((arr.filterMap id).map some)
    ∧ probGt arr th =
        (((arr.filterMap id).filter (fun v => decide (th < v))).length : ℚ) /
          (arr.length : ℚ) := by
  constructor
  · have h : ((arr.filterMap id).map some).filterMap id = arr.filterMap id := by simp
    simp only [summaryStats, h]
  · rfl

/-! ### C10: Monte Carlo iteration count -/

theorem validLength_natCast (k : ℕ) (hk : k < 2 ^ 32) : validLength (k : ℚ) := by
  refine ⟨?_, by positivity, by exact_mod_cast hk⟩
  rw [Int.floor_natCast]
  norm_num

theorem validLength_1000 : validLength (1000 : ℚ) := by
  have h := validLength_natCast 1000 (by norm_num)
  simpa using h

theorem simN_natCast (k : ℕ) (hk : 0 < k) :
    simN (some (k : ℚ)) = ((max 100 k : ℕ) : ℚ) := by
  simp only [simN]
  rw [if_neg (by exact_mod_cast hk.ne'),
    show max (100 : ℚ) (k : ℚ) = ((max 100 k : ℕ) : ℚ) by push_cast [Nat.cast_max]; rfl]

/-- C10 (corrected): at the fractional run count `n = 100.5` the loop bound
is `N = max(100, 100.5) = 100.5`, which is not a valid array length, so
`new Array(N)` (src/app.js:5847) throws `RangeError` before the loop: the
simulation performs no iterations and produces no records at all — neither
the `max(100, n)` iterations the claim asserts nor its promised minimum of
100. -/
theorem claim_C10_cex :
    MC10.sim.n = some (201 / 2)
    ∧ simN MC10.sim.n = 201 / 2
    ∧ ¬validLength (simN MC10.sim.n)
    ∧ runSimulationChecked MC10 0 = none := by
  have hs : simN MC10.sim.n = 201 / 2 := by
    show simN (some (201 / 2)) = 201 / 2
    simp only [simN]
    rw [if_neg (by norm_num), max_eq_right (by norm_num : (100 : ℚ) ≤ 201 / 2)]
  have hfl : ⌊(201 / 2 : ℚ)⌋ = 100 := by
    rw [Int.floor_eq_iff]
    norm_num
  have hnv : ¬validLength (simN MC10.sim.n) := by
    rw [hs]
    rintro ⟨h1, -, -⟩
    rw [hfl] at h1
    norm_num at h1
  refine ⟨rfl, hs, hnv, ?_⟩
  simp only [runSimulationChecked, if_neg hnv]

/-- C10 (amended): writing `N = max(100, n || 1000)` for the loop bound:
when `N` is a valid array length (an integer below `2^32`) the simulation
runs and performs exactly `N = natRuns n` record-producing iterations — in
particular 1000 of them when the run count is missing or zero, exactly
`max(100, n)` when `n` is a positive integer below `2^32`, and never fewer
than 100; when `N` is not a valid array length, `new Array(N)` throws
`RangeError` before the loop and no iterations are performed at all. -/
theorem claim_C10 (m : CBAModel) (e : ℕ) :
    (validLength (simN m.sim.n) →
      (runSimulationChecked m e).map (fun p => p.1.length) = some (natRuns m.sim.n))
    ∧ (¬validLength (simN m.sim.n) → runSimulationChecked m e = none)
    ∧ (m.sim.n = none → natRuns m.sim.n = 1000 ∧ validLength (simN m.sim.n))
    ∧ (m.sim.n = some 0 → natRuns m.sim.n = 1000 ∧ validLength (simN m.sim.n))
    ∧ (∀ k : ℕ, 0 < k → k < 2 ^ 32 → m.sim.n = some (k : ℚ) →
        natRuns m.sim.n = max 100 k ∧ validLength (simN m.sim.n))
    ∧ (validLength (simN m.sim.n) → 100 ≤ natRuns m.sim.n) := by
  have h1000 : simN none = (1000 : ℚ) := by
    simp only [simN]
    rw [max_eq_right (by norm_num : (100 : ℚ) ≤ 1000)]
  have h1000z : simN (some 0) = (1000 : ℚ) := by
    simp only [simN, ite_true]
    rw [max_eq_right (by norm_num : (100 : ℚ) ≤ 1000)]
  refine ⟨?_, ?_, ?_, ?_, ?_, ?_⟩
  · intro hv
    simp only [runSimulationChecked, if_pos hv, Option.map_some', runSimulation_length]
  · intro hnv
    simp only [runSimulationChecked, if_neg hnv]
  · intro h
    rw [h]
    refine ⟨?_, by rw [h1000]; exact validLength_1000⟩
    simp only [natRuns, h1000]
    norm_num
  · intro h
    rw [h]
    refine ⟨?_, by rw [h1000z]; exact validLength_1000⟩
    simp only [natRuns, h1000z]
    norm_num
  · intro k hk hk32 h
    rw [h]
    have hsim := simN_natCast k hk
    constructor
    · simp only [natRuns, hsim]
      exact Nat.ceil_natCast _
    · rw [hsim]
      exact validLength_natCast _ (max_lt (by norm_num) hk32)
  · intro hv
    simp only [natRuns]
    calc (100 : ℕ) = ⌈(100 : ℚ)⌉₊ := by norm_num
    _ ≤ _ := Nat.ceil_le_ceil (le_max_left _ _)

/-! ### C9: MIRR scale invariance -/

theorem pvNegAux_map_mul (fr k : ℝ) (hk : 0 < k) (cf : List ℝ) :
    ∀ t : ℕ, pvNegAux fr (cf.map (fun v => k * v)) t = k * pvNegAux fr cf t := by
  induction cf with
  | nil => intro t; simp [pvNegAux]
  | cons v rest ih =>
    intro t
    simp only [List.map_cons, pvNegAux, ih]
    rcases lt_or_ge v 0 with h | h
    · rw [if_pos h, if_pos (mul_neg_of_pos_of_neg hk h)]; ring
    · rw [if_neg (not_lt.mpr h), if_neg (not_lt.mpr (mul_nonneg hk.le h))]; ring

theorem fvPosAux_map_mul (rr k : ℝ) (hk : 0 < k) (n : ℕ) (cf : List ℝ) :
    ∀ t : ℕ, fvPosAux rr n (cf.map (fun v => k * v)) t = k * fvPosAux rr n cf t := by
  induction cf with
  | nil => intro t; simp [fvPosAux]
  | cons v rest ih =>
    intro t
    simp only [List.map_cons, fvPosAux, ih]
    rcases lt_or_ge 0 v with h | h
    · rw [if_pos h, if_pos (mul_pos hk h)]; ring
    · rw [if_neg (not_lt.mpr h), if_neg (not_lt.mpr (mul_nonpos_of_nonneg_of_nonpos hk.le h))]
      ring

/-- C9 (confirmed): `mirr` is invariant under multiplying every net cash
flow by the same positive factor `k`: the discounted negative flows and the
compounded positive flows both scale by `k`, so the ratio driving the
`n`-th root is unchanged, and so is the undefined (`pvNeg = 0`) case. -/
theorem claim_C9 (cf : List ℝ) (financeRatePct reinvestRatePct k : ℝ) (hk : 0 < k) :
    mirr (cf.map (fun v => k * v)) financeRatePct reinvestRatePct
      = mirr cf financeRatePct reinvestRatePct := by
  simp only [mirr, List.length_map,
    pvNegAux_map_mul _ k hk cf, fvPosAux_map_mul _ k hk _ cf]
  by_cases h : pvNegAux (financeRatePct / 100) cf 0 = 0
  · simp [h]
  · rw [if_neg (mul_ne_zero hk.ne' h), if_neg h]
    rw [show -(k * fvPosAux (reinvestRatePct / 100) (cf.length - 1) cf 0)
          = k * -fvPosAux (reinvestRatePct / 100) (cf.length - 1) cf 0 by ring,
        mul_div_mul_left _ _ hk.ne']

/-- C9 witness: the invariance applied to the concrete series `[-1, 2]`
scaled by `k = 2`, at the source's default finance and reinvestment rates. -/
theorem claim_C9_witness :
    mirr ([(-1 : ℝ), 2].map (fun v => (2 : ℝ) * v)) 6 4 = mirr [(-1 : ℝ), 2] 6 4 :=
  claim_C9 [(-1 : ℝ), 2] 6 4 2 (by norm_num)

/-! ### C3: the simulation restores the model -/

theorem restoreOutputs_base (l : List OutputDef) :
    (l.zip (l.map (fun o => jsOr o.value 0))).map (fun p => { p.1 with value := p.2 }) = l := by
  induction l with
  | nil => rfl
  | cons o rest ih =>
    simp only [List.map_cons, List.zip_cons_cons]
    rw [ih, jsOr_zero]

theorem restoreTreatments_base (l : List Treatment) :
    (l.zip (l.map (fun t => (jsOr t.materialsCost 0, jsOr t.servicesCost 0, jsOr t.labourCost 0)))).map
      (fun p => { p.1 with materialsCost := p.2.1, servicesCost := p.2.2.1, labourCost := p.2.2.2 }) = l := by
  induction l with
  | nil => rfl
  | cons t rest ih =>
    simp only [List.map_cons, List.zip_cons_cons]
    rw [ih, jsOr_zero, jsOr_zero, jsOr_zero]

theorem restoreOtherCosts_base (l : List OtherCostItem) :
    (l.zip (l.map (fun c => (jsOr c.annual 0, jsOr c.capital 0)))).map
      (fun p => { p.1 with annual := p.2.1, capital := p.2.2 }) = l := by
  induction l with
  | nil => rfl
  | cons c rest ih =>
    simp only [List.map_cons, List.zip_cons_cons]
    rw [ih, jsOr_zero, jsOr_zero]

theorem runSimulation_restore (m : CBAModel) (e : ℕ) : (runSimulation m e).2 = m := by
  simp only [runSimulation, restoreModel]
  rw [restoreOutputs_base, restoreTreatments_base, restoreOtherCosts_base]

/-- C3 (confirmed): for every model and every run configuration (carried
inside the model's `sim` fields, with `entropy` standing for the unseeded
`Math.random` draw), after `runSimulation` returns, every output value,
every treatment's materials/services/labour cost, and every other-cost
item's annual and capital amount equals its pre-run value: the saved base
values are `Number(x) || 0` of finite inputs, i.e. the inputs themselves,
and the restore phase writes exactly those back. -/
theorem claim_C3 (m : CBAModel) (e : ℕ) :
    (runSimulation m e).2.outputs.map OutputDef.value = m.outputs.map OutputDef.value
    ∧ (runSimulation m e).2.treatments.map
        (fun t => (t.materialsCost, t.servicesCost, t.labourCost))
      = m.treatments.map (fun t => (t.materialsCost, t.servicesCost, t.labourCost))
    ∧ (runSimulation m e).2.otherCosts.map (fun c => (c.annual, c.capital))
      = m.otherCosts.map (fun c => (c.annual, c.capital)) := by
  rw [runSimulation_restore]
  exact ⟨rfl, rfl, rfl⟩

/-! ### C8: seeded determinism -/

/-- C8 (amended, proved): with a nonzero numeric seed the simulation is a
pure function of the model alone — the `Math.random` entropy is never
consulted, so any two invocations yield the same record sequence. -/
theorem claim_C8 (m : CBAModel) (s : ℤ) (e1 e2 : ℕ)
    (hseed : m.sim.seed = some s) (hs : s ≠ 0) :
    (runSimulation m e1).1 = (runSimulation m e2).1 := by
  have h : ∀ e, seedInit m.sim.seed e = (s % 2 ^ 32).toNat := by
    intro e; rw [hseed]; simp [seedInit, hs]
  simp only [runSimulation]
  rw [h e1, h e2]

/-- C8 witness: the determinism theorem applied to the concrete model `M1`
(seed 1) and two distinct entropy values. -/
theorem claim_C8_witness : (runSimulation M1 5).1 = (runSimulation M1 7).1 :=
  claim_C8 M1 1 5 7 rfl (by decide)

theorem runSimulation_head (m : CBAModel) (e k : ℕ) (hk : natRuns m.sim.n = k + 1) :
    ((runSimulation m e).1.head?).map SimRecord.discountRatePct
      = some (triangular (((rngNext (seedInit m.sim.seed e)).2 : ℝ) / 4294967296)
          m.time.discLow m.time.discBase m.time.discHigh) := by
  simp only [runSimulation, hk, simLoop, List.head?_cons]
  rfl

theorem natRuns_M8 : natRuns M8.sim.n = 99 + 1 := by
  show natRuns (some 100) = 100
  simp only [natRuns, simN]
  rw [if_neg (by norm_num), max_self]
  norm_num

/-- C8 (corrected): the claim fails for the numeric seed `0`.  JavaScript
evaluates `seed || Math.floor(Math.random() * 2 ** 31)`, and `0` is falsy,
so a zero seed falls back to `Math.random` (here: the entropy argument)
and two invocations with the same model, same configuration, and the same
numeric seed `0` produce different record sequences — already their first
records' sampled discount rates differ. -/
theorem claim_C8_cex :
    M8.sim.seed = some 0 ∧ (runSimulation M8 1).1 ≠ (runSimulation M8 2).1 := by
  refine ⟨rfl, fun hEq => ?_⟩
  have h1 := runSimulation_head M8 1 99 natRuns_M8
  have h2 := runSimulation_head M8 2 99 natRuns_M8
  rw [hEq] at h1
  have hd : triangular (((rngNext (seedInit M8.sim.seed 1)).2 : ℝ) / 4294967296)
      M8.time.discLow M8.time.discBase M8.time.discHigh
      = triangular (((rngNext (seedInit M8.sim.seed 2)).2 : ℝ) / 4294967296)
        M8.time.discLow M8.time.discBase M8.time.discHigh :=
    Option.some.inj (h1.symm.trans h2)
  have hs1 : seedInit M8.sim.seed 1 = 1 := by norm_num [seedInit, M8, simCfg0]
  have hs2 : seedInit M8.sim.seed 2 = 2 := by norm_num [seedInit, M8, simCfg0]
  rw [hs1, hs2] at hd
  have hr1 : (rngNext 1).2 = 2693262067 := by decide
  have hr2 : (rngNext 2).2 = 3153583793 := by decide
  rw [hr1, hr2] at hd
  have hlow : M8.time.discLow = 4 := rfl
  have hbase : M8.time.discBase = 7 := rfl
  have hhigh : M8.time.discHigh = 10 := rfl
  rw [hlow, hbase, hhigh] at hd
  set u1 : ℝ := ((2693262067 : ℕ) : ℝ) / 4294967296 with hu1
  set u2 : ℝ := ((3153583793 : ℕ) : ℝ) / 4294967296 with hu2
  have hnb1 : ¬(u1 < ((7 : ℝ) - 4) / (10 - 4)) := by rw [hu1]; push_cast; norm_num
  have hnb2 : ¬(u2 < ((7 : ℝ) - 4) / (10 - 4)) := by rw [hu2]; push_cast; norm_num
  have ht : triangular u1 4 7 10 < triangular u2 4 7 10 := by
    simp only [triangular, if_neg hnb1, if_neg hnb2]
    have ha2 : (0 : ℝ) ≤ (1 - u2) * (10 - 4) * (10 - 7) := by
      rw [hu2]; push_cast; norm_num
    have hlt : (1 - u2) * ((10 : ℝ) - 4) * (10 - 7) < (1 - u1) * (10 - 4) * (10 - 7) := by
      rw [hu1, hu2]; push_cast; norm_num
    have := Real.sqrt_lt_sqrt ha2 hlt
    linarith
  exact ht.ne hd

/-! ### C4: the IRR root finder -/

theorem expandHi_form (cf : List ℝ) (nLo : ℝ) :
    ∀ (fuel : ℕ) (hi : ℝ), ∃ k ≤ fuel, expandHi cf nLo fuel hi = hi * 1.5 ^ k := by
  intro fuel
  induction fuel with
  | zero => intro hi; exact ⟨0, le_refl 0, by simp [expandHi]⟩
  | succ f ih =>
    intro hi
    by_cases h : 0 < nLo * npvAt cf hi
    · obtain ⟨k, hk, heq⟩ := ih (hi * 1.5)
      refine ⟨k + 1, Nat.succ_le_succ hk, ?_⟩
      rw [expandHi, if_pos h, heq, pow_succ]
      ring
    · exact ⟨0, Nat.zero_le _, by rw [expandHi, if_neg h]; simp⟩

theorem bisect_form (cf : List ℝ) :
    ∀ (fuel : ℕ) (lo hi nLo : ℝ), ∃ mid, bisect cf fuel lo hi nLo = mid * 100 := by
  intro fuel
  induction fuel with
  | zero => intro lo hi nLo; exact ⟨(lo + hi) / 2, rfl⟩
  | succ f ih =>
    intro lo hi nLo
    by_cases h1 : |npvAt cf ((lo + hi) / 2)| < 1e-8
    · exact ⟨(lo + hi) / 2, by rw [bisect, if_pos h1]⟩
    · by_cases h2 : nLo * npvAt cf ((lo + hi) / 2) ≤ 0
      · obtain ⟨mid, hm⟩ := ih lo ((lo + hi) / 2) nLo
        exact ⟨mid, by rw [bisect, if_neg h1, if_pos h2]; exact hm⟩
      · obtain ⟨mid, hm⟩ := ih ((lo + hi) / 2) hi (npvAt cf ((lo + hi) / 2))
        exact ⟨mid, by rw [bisect, if_neg h1, if_neg h2]; exact hm⟩

/-- C4 (confirmed): the structure of `irr`.  (a) When all flows are
nonnegative or all nonpositive the result is undefined.  (b) If the NPVs at
`lo = -0.99` and at the expanded upper bound still have the same (positive
product) sign, the result is undefined.  (c) The expansion multiplies the
initial upper bound `5` by `1.5` at most 20 times.  (d) Any defined result
is a bisection midpoint times 100.  (e) The bisection returns `mid * 100`
as soon as `|npv(mid)| < 1e-8`, and (by the fuel argument of `bisect`) runs
at most 80 iterations. -/
theorem claim_C4 (cf : List ℝ) :
    (((∀ v ∈ cf, 0 ≤ v) ∨ (∀ v ∈ cf, v ≤ 0)) → irr cf = none)
    ∧ (0 < npvAt cf (-0.99) * npvAt cf
          (if 0 < npvAt cf (-0.99) * npvAt cf 5 then expandHi cf (npvAt cf (-0.99)) 20 5 else 5)
        → irr cf = none)
    ∧ (∃ k ≤ 20, expandHi cf (npvAt cf (-0.99)) 20 5 = 5 * 1.5 ^ k)
    ∧ (∀ x, irr cf = some x → ∃ mid, x = mid * 100)
    ∧ (∀ (fuel : ℕ) (lo hi nLo : ℝ), |npvAt cf ((lo + hi) / 2)| < 1e-8 →
        bisect cf (fuel + 1) lo hi nLo = (lo + hi) / 2 * 100) := by
  refine ⟨?_, ?_, ?_, ?_, ?_⟩
  · intro h
    have hc : ¬((∃ v ∈ cf, 0 < v) ∧ (∃ v ∈ cf, v < 0)) := by
      rcases h with h | h
      · rintro ⟨-, ⟨v, hv, hneg⟩⟩
        exact absurd hneg (not_lt.mpr (h v hv))
      · rintro ⟨⟨v, hv, hpos⟩, -⟩
        exact absurd hpos (not_lt.mpr (h v hv))
    simp only [irr, if_neg hc]
  · intro h
    by_cases hc : (∃ v ∈ cf, 0 < v) ∧ (∃ v ∈ cf, v < 0)
    · simp only [irr, if_pos hc, if_pos h]
    · simp only [irr, if_neg hc]
  · obtain ⟨k, hk, heq⟩ := expandHi_form cf (npvAt cf (-0.99)) 20 5
    exact ⟨k, hk, heq⟩
  · intro x hx
    by_cases hc : (∃ v ∈ cf, 0 < v) ∧ (∃ v ∈ cf, v < 0)
    · simp only [irr, if_pos hc] at hx
      by_cases h2 : 0 < npvAt cf (-0.99) * npvAt cf
          (if 0 < npvAt cf (-0.99) * npvAt cf 5 then expandHi cf (npvAt cf (-0.99)) 20 5 else 5)
      · rw [if_pos h2] at hx
        exact absurd hx (by simp)
      · rw [if_neg h2] at hx
        obtain ⟨mid, hm⟩ := bisect_form cf 80 (-0.99)
          (if 0 < npvAt cf (-0.99) * npvAt cf 5 then expandHi cf (npvAt cf (-0.99)) 20 5 else 5)
          (npvAt cf (-0.99))
        exact ⟨mid, by rw [← Option.some.inj hx, hm]⟩
    · simp only [irr, if_neg hc] at hx
      exact absurd hx (by simp)
  · intro fuel lo hi nLo h
    rw [bisect, if_pos h]

/-- C4 witness: a series with no sign change (all flows positive), on which
the precondition clause yields an undefined IRR. -/
theorem claim_C4_witness : irr [(1 : ℝ), 2] = none :=
  (claim_C4 [(1 : ℝ), 2]).1 (Or.inl (by
    intro v hv
    simp only [List.mem_cons, List.mem_singleton, List.not_mem_nil, or_false] at hv
    rcases hv with rfl | rfl <;> norm_num))

/-! ### Concrete evaluation helpers -/

theorem clamp_one : clamp 1 0 1 = 1 := by
  unfold clamp
  rw [min_self, max_eq_right zero_le_one]

theorem clamp_zero : clamp 0 0 1 = 0 := by
  unfold clamp
  rw [min_eq_right zero_le_one, max_self]

theorem M1_cashflows : buildCashflows M1 0 1 0 =
    { benefitByYear := [0, 100], costByYear := [0, 40], constrainedCostByYear := [0, 40],
      cf := [0, 60], annualGM := 60 } := by
  simp only [buildCashflows, M1, simCfg0]
  norm_num [treatBenefit, valuePerHa, treatOpCost, clamp_one, clamp_zero, jsOr_zero,
    additionalBenefitsSeries, benefitContribAt, otherAnnualAt, otherCapitalSpreadAt,
    otherCapitalAt0, show List.range 2 = [0, 1] from rfl, List.getD]

theorem M1_pvCosts : (computeAll M1 0 1 0 "all").pvCosts = 40 := by
  simp only [computeAll, M1_cashflows]
  norm_num [presentValue, presentValueAux]

theorem M5_cashflows : buildCashflows M5 0 1 0 =
    { benefitByYear := [0, 50], costByYear := [0, 110], constrainedCostByYear := [0, 10],
      cf := [0, -60], annualGM := -60 } := by
  simp only [buildCashflows, M5, simCfg0]
  norm_num [treatBenefit, valuePerHa, treatOpCost, clamp_one, clamp_zero, jsOr_zero,
    additionalBenefitsSeries, benefitContribAt, otherAnnualAt, otherCapitalSpreadAt,
    otherCapitalAt0, show List.range 2 = [0, 1] from rfl, List.getD]

/-! ### C1: the one-treatment base scenario -/

/-- C1 (confirmed): for the model with one treatment of area 1 ha,
per-hectare output value 100 per year, annual cost 40 per hectare, no
capital cost, no extra items, adoption multiplier 1, risk 0, a 1-year
horizon and a 0% discount rate, `buildCashflows` followed by `computeAll`
yields `pvBenefits = 100`, `pvCosts = 40`, `npv = 60`, `bcr = 5/2 = 2.5`
and `roi = 150` (percent). -/
theorem claim_C1 :
    (computeAll M1 0 1 0 "all").pvBenefits = 100
    ∧ (computeAll M1 0 1 0 "all").pvCosts = 40
    ∧ (computeAll M1 0 1 0 "all").npv = 60
    ∧ (computeAll M1 0 1 0 "all").bcr = some (5 / 2)
    ∧ (computeAll M1 0 1 0 "all").roi = some 150 := by
  simp only [computeAll, M1_cashflows]
  norm_num [presentValue, presentValueAux]

/-! ### C5: BCR versus NPV sign -/

/-- C5 (corrected): the claimed equivalence fails in the constrained BCR
mode, where the ratio's denominator is `pvCostsConstrained`, not `pvCosts`.
In the model `M5` (non-constrained treatment costing 100/yr producing 50/yr,
constrained treatment costing 10/yr), at a 0% rate: `pvCosts = 110 > 0`,
`bcr = 50/10 = 5 > 1`, yet `npv = 50 - 110 = -60 < 0`. -/
theorem claim_C5_cex :
    0 < (computeAll M5 0 1 0 "constrained").pvCosts
    ∧ ¬((∃ x, (computeAll M5 0 1 0 "constrained").bcr = some x ∧ 1 < x)
        ↔ 0 < (computeAll M5 0 1 0 "constrained").npv) := by
  have hb : (computeAll M5 0 1 0 "constrained").bcr = some 5 := by
    simp only [computeAll, M5_cashflows]
    norm_num [presentValue, presentValueAux]
  have hn : (computeAll M5 0 1 0 "constrained").npv = -60 := by
    simp only [computeAll, M5_cashflows]
    norm_num [presentValue, presentValueAux]
  have hc : (computeAll M5 0 1 0 "constrained").pvCosts = 110 := by
    simp only [computeAll, M5_cashflows]
    norm_num [presentValue, presentValueAux]
  refine ⟨by rw [hc]; norm_num, fun hiff => ?_⟩
  have h0 := hiff.mp ⟨5, hb, by norm_num⟩
  rw [hn] at h0
  norm_num at h0

/-- C5 (amended): in every BCR mode other than `"constrained"` the
denominator is `pvCosts` itself, and then `bcr > 1 ⟺ npv > 0` whenever
`pvCosts > 0`. -/
theorem claim_C5 (m : CBAModel) (rate adoptMul risk : ℝ) (bcrMode : String)
    (hmode : bcrMode ≠ "constrained")
    (hpos : 0 < (computeAll m rate adoptMul risk bcrMode).pvCosts) :
    (∃ x, (computeAll m rate adoptMul risk bcrMode).bcr = some x ∧ 1 < x)
      ↔ 0 < (computeAll m rate adoptMul risk bcrMode).npv := by
  simp only [computeAll] at hpos ⊢
  rw [if_neg hmode, if_pos hpos]
  constructor
  · rintro ⟨x, hx, h1⟩
    rw [← Option.some.inj hx] at h1
    exact sub_pos.mpr ((one_lt_div hpos).mp h1)
  · intro h
    exact ⟨_, rfl, (one_lt_div hpos).mpr (sub_pos.mp h)⟩

/-- C5 witness: the equivalence applied to the concrete base-scenario model
`M1` in the plain (`"all"`) BCR mode, where `pvCosts = 40 > 0`. -/
theorem claim_C5_witness :
    (∃ x, (computeAll M1 0 1 0 "all").bcr = some x ∧ 1 < x)
      ↔ 0 < (computeAll M1 0 1 0 "all").npv :=
  claim_C5 M1 0 1 0 "all" (by decide) (by rw [M1_pvCosts]; norm_num)

/-! ### C6: one-off benefit items -/

theorem getD_range_map (f : ℕ → ℝ) (n i : ℕ) (h : i < n) :
    ((List.range n).map f).getD i 0 = f i := by
  rw [List.getD_eq_getElem?_getD, List.getElem?_map, List.getElem?_range h]
  rfl

/-- C6 (corrected): a single C6 / frequency-Once item posts one lump of
`annualAmount` (scaled by the adoption factor when `linkAdoption`, and by
the risk factor when `linkRisk`) at series index
`onceYear - baseYear + 1` — the year's offset from the base year PLUS ONE —
whenever that index lies in `[0, N]`; every other index receives nothing.
(The claim as stated places the lump at the offset itself.) -/
theorem claim_C6 (N : ℕ) (baseYear : ℤ) (adoptMul risk : ℝ) (b : BenefitItem)
    (hb : b.frequency = "Once" ∨ b.category = "C6") (i : ℕ) (hi : i ≤ N) :
    (additionalBenefitsSeries N baseYear adoptMul risk [b]).getD i 0 =
      if jsOrZ b.year (jsOrZ b.startYear baseYear) - baseYear + 1 = (i : ℤ)
      then jsOr b.annualAmount 0 * (if b.linkAdoption then clamp adoptMul 0 1 else 1)
        * (if b.linkRisk then 1 - clamp risk 0 1 else 1)
      else 0 := by
  rw [additionalBenefitsSeries, getD_range_map _ _ _ (Nat.lt_succ_of_le hi)]
  simp only [List.map_cons, List.map_nil, List.sum_cons, List.sum_nil, add_zero]
  rw [benefitContribAt]
  simp only [if_pos hb]
  by_cases hidx : jsOrZ b.year (jsOrZ b.startYear baseYear) - baseYear + 1 = (i : ℤ)
  · rw [if_pos ⟨hidx, by rw [hidx]; exact Int.ofNat_nonneg i,
      by rw [hidx]; exact_mod_cast hi⟩, if_pos hidx]
  · rw [if_neg (by rintro ⟨h1, -, -⟩; exact hidx h1), if_neg hidx]

/-- C6 counterexample: for the item `b6` (`onceYear = baseYear = 2026`,
amount 100, horizon `N = 2`), the claim predicts the lump at index
`onceYear - baseYear = 0`; the code posts it at index 1 and leaves index 0
at zero. -/
theorem claim_C6_cex :
    (additionalBenefitsSeries 2 2026 1 0 [b6]).getD 0 0 = 0
    ∧ (additionalBenefitsSeries 2 2026 1 0 [b6]).getD 1 0 = 100 := by
  constructor <;>
  · rw [additionalBenefitsSeries, getD_range_map _ _ _ (by norm_num)]
    norm_num [benefitContribAt, b6, jsOrZ, jsOr_zero]

/-- C6 witness: the amended posting rule applied to `b6` at index 2, which
is not the posting index `1`, hence receives nothing. -/
theorem claim_C6_witness : (additionalBenefitsSeries 2 2026 1 0 [b6]).getD 2 0 = 0 :=
  (claim_C6 2 2026 1 0 b6 (Or.inl rfl) 2 (by norm_num)).trans
    (by norm_num [b6, jsOrZ])

/-! ### C2: control designation -/

/-- C2 (corrected / amended): when no treatment is flagged as control, the
code does NOT fail fast: `aggregateTreatments` silently falls back — first
to a treatment name containing "control" (case-insensitively), else to the
first treatment name — and `computeCBA` then produces a full results object
whenever at least one treatment exists and a control name was decided. -/
theorem claim_C2 (names : List String) (st : CbaState)
    (hn : ∀ n ∈ names, hasControlName n = false)
    (hne : st.treatments ≠ []) (hc : st.controlName ≠ none) :
    decideControl names none = names.head? ∧ (computeCBA st).isSome := by
  constructor
  · simp only [decideControl]
    rw [List.find?_eq_none.mpr (fun x hx => by simp [hn x hx])]
  · rcases st with ⟨ts, cn, ps⟩
    simp only at hne hc
    rcases ts with _ | ⟨t0, rest⟩
    · exact absurd rfl hne
    rcases cn with _ | c
    · exact absurd rfl hc
    simp [computeCBA]

/-- C2 witness: the fallback and result production for the two-treatment
dataset `{A, B}` with no control flag: the control silently becomes "A" and
evaluation succeeds. -/
theorem claim_C2_witness :
    decideControl ["A", "B"] none = some "A" ∧ (computeCBA stAB).isSome := by
  have h := claim_C2 ["A", "B"] stAB (by decide) (by decide) (by decide)
  exact ⟨h.1, h.2⟩

/-- C2 counterexample: a dataset with the single unflagged treatment "A"
(no treatment designated as control).  The claim predicts a configuration
error and no results; the code silently defaults the control to "A" and
produces a ranked results object. -/
theorem claim_C2_cex :
    decideControl ["A"] none = some "A"
    ∧ computeCBA stA ≠ none
    ∧ (computeCBA stA).map (fun r => r.control.name) = some "A"
    ∧ (computeCBA stA).map (fun r => r.treatments.length) = some 1 := by
  refine ⟨by decide, ?_, ?_, ?_⟩ <;>
    simp [computeCBA, stA, decideControl, hasControlName, containsSub, charsPrefix,
      insertionSort, sortedInsert, List.find?]

/-- C10 witness: the iteration-count characterisation applied to the
concrete model `M1`, whose configured run count is 100: the allocation
succeeds and exactly 100 records are produced. -/
theorem claim_C10_witness :
    (runSimulationChecked M1 0).map (fun p => p.1.length) = some 100 := by
  have h := claim_C10 M1 0
  obtain ⟨hn, hv⟩ := h.2.2.2.2.1 100 (by norm_num) (by norm_num) (by norm_num [M1, simCfg0])
  rw [h.1 hv, hn]
  norm_num
